import Mathlib

/-!
Verification of the box-editing core of the StreamlitImgLabel component
(src/streamlit_img_label/frontend/src/StreamlitImgLabel.tsx).

The component keeps three pieces of state that matter to the box-editing
logic: the list of fabric canvas objects (one rectangle geometry per box,
in insertion order), the React labels list, and the quick-add counter
newBBoxIndex. We embed these as an explicit State record and each event
handler as a function State -> State x emitted-output.

JS numbers are modelled as rationals; the concrete constants exercised by
the spec (0.15, 0.2, widths 1000/800) are exact in binary64, so the
rational model agrees with the JS evaluation on every input used here.
JS array reads out of range yield undefined, modelled as none: the labels
list is a List (Option String) (an entry none is a JS hole/undefined),
and an emitted label is an Option String.

The visual layer (fabric.js) is external to this repository; per the
specification (section 4.5) a shape's bounding rectangle is the rectangle
the shape carries, so getBoundingRect on an unmodified shape returns the
geometry the shape was constructed with. That is how Geom is read back in
sendCoordinates.
-/

namespace StreamlitImgLabel

/-- RectProps from the source: a host-supplied box, field order as in the
TypeScript interface. -/
structure RectProps where
  top : ℚ
  left : ℚ
  width : ℚ
  height : ℚ
  label : String
deriving DecidableEq, Repr

/-- The host arguments the box-editing logic reads (PythonArgs in the
source, minus boxColor and imageData, which never influence geometry or
labels). -/
structure PythonArgs where
  canvasWidth : ℚ
  canvasHeight : ℚ
  rects : List RectProps
deriving DecidableEq, Repr

/-- Geometry of one fabric canvas object (a fabric.Rect as constructed by
the handlers: left, top, width, height). -/
structure Geom where
  left : ℚ
  top : ℚ
  width : ℚ
  height : ℚ
deriving DecidableEq, Repr

/-- One entry of the serialized output sent through
Streamlit.setComponentValue: the bounding rectangle spread plus the label
(possibly undefined, i.e. none, when the labels array is too short). -/
structure EmittedRect where
  left : ℚ
  top : ℚ
  width : ℚ
  height : ℚ
  label : Option String
deriving DecidableEq, Repr

/-- The component state the handlers read and write: canvas.getObjects(),
the labels React state, and the newBBoxIndex counter. -/
structure State where
  objects : List Geom
  labels : List (Option String)
  newBBoxIndex : ℕ
deriving DecidableEq, Repr

/-- Geometry a fabric.Rect is constructed with from a host rect. -/
def toGeom (r : RectProps) : Geom :=
  { left := r.left, top := r.top, width := r.width, height := r.height }

/-- State after the mount effect: one canvas object per host rect, labels
set to the host labels (setLabels(rects.map(rect => rect.label))), counter
at 0. -/
def initState (args : PythonArgs) : State :=
  { objects := args.rects.map toGeom
  , labels := args.rects.map (fun r => some r.label)
  , newBBoxIndex := 0 }

/-- JS array read: ls[i], undefined (none) when out of range or a hole. -/
def jsGet (ls : List (Option String)) (i : ℕ) : Option String :=
  (ls[i]?).join

/-- JS array write u[i] = v on a copy: replaces in range, otherwise
extends the array with holes up to index i (JS sparse-array semantics). -/
def jsSet (ls : List (Option String)) (i : ℕ) (v : Option String) :
    List (Option String) :=
  if i < ls.length then ls.set i v
  else ls ++ List.replicate (i - ls.length) none ++ [v]

/-- One pass of Array.prototype.filter with an index-dependent predicate,
the index starting at k. -/
def filterIdxAux (p : ℕ → Bool) : ℕ → List α → List α
  | _, [] => []
  | k, a :: l =>
      if p k then a :: filterIdxAux p (k + 1) l else filterIdxAux p (k + 1) l

/-- Array.prototype.filter keeping the elements whose index satisfies p. -/
def filterIdx (p : ℕ → Bool) (l : List α) : List α :=
  filterIdxAux p 0 l

/-- The map inside sendCoordinates, with the running index: one output
entry per canvas object, spreading its bounding rectangle and attaching
returnLabels[i]. -/
def emitRectsAux (ls : List (Option String)) : ℕ → List Geom → List EmittedRect
  | _, [] => []
  | i, g :: gs =>
      { left := g.left, top := g.top, width := g.width, height := g.height
      , label := jsGet ls i } :: emitRectsAux ls (i + 1) gs

/-- The output of canvas.getObjects().map((rect, i) => ...). -/
def emitRects (objects : List Geom) (ls : List (Option String)) :
    List EmittedRect :=
  emitRectsAux ls 0 objects

/-- sendCoordinates(returnLabels): setLabels(returnLabels), then emit one
entry per canvas object with label returnLabels[i]. Returns the new state
and the emitted list. -/
def sendCoordinates (s : State) (ls : List (Option String)) :
    State × List EmittedRect :=
  ({ s with labels := ls }, emitRects s.objects ls)

/-- defaultBox(): placement from the surface size and the quick-add
counter n. -/
def defaultBox (cw ch : ℚ) (n : ℕ) : Geom :=
  { left := cw * 0.15 + n * 3
  , top := ch * 0.15 + n * 3
  , width := cw * 0.2
  , height := ch * 0.2 }

/-- addBoxHandler: compute the default box from the current counter,
increment the counter, append the box to the canvas, and
sendCoordinates([...labels, ""]). -/
def addBoxHandler (args : PythonArgs) (s : State) : State × List EmittedRect :=
  let box := defaultBox args.canvasWidth args.canvasHeight s.newBBoxIndex
  sendCoordinates
    { s with newBBoxIndex := s.newBBoxIndex + 1, objects := s.objects ++ [box] }
    (s.labels ++ [some ""])

/-- removeBoxHandler with the selection given by the indices of the active
objects in canvas.getObjects() (indexOf yields -1 for an object not on the
canvas, hence the integer index type). The objects at the selected indices
are removed from the canvas, the labels are filtered by the same index set
in a single pass, and sendCoordinates is called with the filtered
labels. -/
def removeBoxHandler (s : State) (selectedIndices : List ℤ) :
    State × List EmittedRect :=
  let keep : ℕ → Bool := fun i => decide (¬ (i : ℤ) ∈ selectedIndices)
  sendCoordinates
    { s with objects := filterIdx keep s.objects }
    (filterIdx keep s.labels)

/-- clearHandler: reset the counter to 0, remove every object from the
canvas, and sendCoordinates([]). -/
def clearHandler (s : State) : State × List EmittedRect :=
  sendCoordinates { s with newBBoxIndex := 0, objects := [] } []

/-- resetHandler: call clearHandler, re-add one canvas object per
host-supplied rect, then sendCoordinates(labels). The labels identifier in
the handler is the React closure value captured before clearHandler ran,
i.e. the pre-reset labels, because setLabels inside clearHandler does not
update the closure within the same event turn. -/
def resetHandler (args : PythonArgs) (s : State) : State × List EmittedRect :=
  let oldLabels := s.labels
  let s1 := (clearHandler s).1
  let s2 := { s1 with objects := s1.objects ++ args.rects.map toGeom }
  sendCoordinates s2 oldLabels

/-- handleSelected: the selection event records only selected?.[0]; the
stored selectedIndex is the index of that first object, or null when the
selection is empty. The argument is the list of indices of the selected
objects in canvas order. -/
def handleSelected (sel : List ℕ) : Option ℕ :=
  sel.head?

/-- Committing the label input (onBlur / Enter): copy the labels array,
write labelInput at selectedIndex, and sendCoordinates with the result. -/
def commitLabel (s : State) (selectedIndex : ℕ) (labelInput : String) :
    State × List EmittedRect :=
  sendCoordinates s (jsSet s.labels selectedIndex (some labelInput))

/-- A user-visible mutation of the box collection. -/
inductive Op where
  | add : Op
  | removeSel : List ℤ → Op
  | commit : ℕ → String → Op
  | reset : Op
  | clear : Op
deriving DecidableEq, Repr

/-- Dispatch one operation to its handler. -/
def stepOp (args : PythonArgs) (s : State) : Op → State × List EmittedRect
  | Op.add => addBoxHandler args s
  | Op.removeSel idxs => removeBoxHandler s idxs
  | Op.commit i v => commitLabel s i v
  | Op.reset => resetHandler args s
  | Op.clear => clearHandler s

/-- Run a sequence of operations, recording for each one the list it
emitted and the state right after it. -/
def runOps (args : PythonArgs) : State → List Op → List (List EmittedRect × State)
  | _, [] => []
  | s, op :: ops =>
      ((stepOp args s op).2, (stepOp args s op).1)
        :: runOps args (stepOp args s op).1 ops

/-- Specification-side description of simultaneous removal: the indices of
the pre-removal collection that survive, in increasing order. -/
def keptIndices (n : ℕ) (idxs : List ℤ) : List ℕ :=
  (List.range n).filter (fun i => decide (¬ (i : ℤ) ∈ idxs))

/-- Specification-side removal: the sublist of a list at the positions not
named by the index set, in their original relative order, re-indexed
contiguously. -/
def removeSpec (idxs : List ℤ) (l : List α) : List α :=
  (keptIndices l.length idxs).filterMap (fun i => l[i]?)

section HelperLemmas

variable {α : Type}

theorem filterIdxAux_all_true (p : ℕ → Bool) (h : ∀ i, p i = true) :
    ∀ (l : List α) (k : ℕ), filterIdxAux p k l = l
  | [], _ => rfl
  | a :: l, k => by
      simp only [filterIdxAux, h k, if_true]
      exact congrArg (a :: ·) (filterIdxAux_all_true p h l (k + 1))

theorem filterIdxAux_congr (p q : ℕ → Bool) :
    ∀ (l : List α) (k : ℕ), (∀ j, j < l.length → p (k + j) = q (k + j)) →
      filterIdxAux p k l = filterIdxAux q k l
  | [], _, _ => rfl
  | a :: l, k, h => by
      have h0 : p k = q k := by simpa using h 0 (Nat.succ_pos _)
      have htail : ∀ j, j < l.length → p (k + 1 + j) = q (k + 1 + j) := by
        intro j hj
        have := h (j + 1) (by simpa using Nat.succ_lt_succ hj)
        simpa [Nat.add_assoc, Nat.add_comm 1 j] using this
      simp only [filterIdxAux, h0,
        filterIdxAux_congr p q l (k + 1) htail]

theorem filterIdxAux_shift (p : ℕ → Bool) :
    ∀ (l : List α) (k : ℕ),
      filterIdxAux p (k + 1) l = filterIdxAux (fun i => p (i + 1)) k l
  | [], _ => rfl
  | a :: l, k => by
      simp only [filterIdxAux, filterIdxAux_shift p l (k + 1)]

theorem filterIdx_eq_filterMap (p : ℕ → Bool) :
    ∀ l : List α,
      filterIdx p l = ((List.range l.length).filter p).filterMap (fun i => l[i]?)
  | [] => rfl
  | a :: l => by
      have ih := filterIdx_eq_filterMap (fun i => p (i + 1)) l
      simp only [filterIdx] at ih
      simp only [filterIdx, filterIdxAux, filterIdxAux_shift, ih,
        List.length_cons, List.range_succ_eq_map, List.filter_cons,
        List.filter_map, List.filterMap_map]
      have hcomp :
          ((fun i : ℕ => (a :: l)[i]?) ∘ Nat.succ) = fun i : ℕ => l[i]? := by
        funext i
        simp
      by_cases hp : p 0 = true
      · simp [hp, hcomp, Function.comp_def]
      · simp [hp, hcomp, Function.comp_def]

theorem emitRectsAux_length (ls : List (Option String)) :
    ∀ (gs : List Geom) (k : ℕ), (emitRectsAux ls k gs).length = gs.length
  | [], _ => rfl
  | _ :: gs, k => by
      simp only [emitRectsAux, List.length_cons, emitRectsAux_length ls gs (k + 1)]

theorem emitRectsAux_cons_shift (a : Option String) (ls : List (Option String)) :
    ∀ (gs : List Geom) (k : ℕ),
      emitRectsAux (a :: ls) (k + 1) gs = emitRectsAux ls k gs
  | [], _ => rfl
  | g :: gs, k => by
      simp only [emitRectsAux, emitRectsAux_cons_shift a ls gs (k + 1), jsGet,
        List.getElem?_cons_succ]

theorem emitRectsAux_congr (ls1 ls2 : List (Option String)) :
    ∀ (gs : List Geom) (k : ℕ),
      (∀ j, j < gs.length → jsGet ls1 (k + j) = jsGet ls2 (k + j)) →
      emitRectsAux ls1 k gs = emitRectsAux ls2 k gs
  | [], _, _ => rfl
  | g :: gs, k, h => by
      have h0 : jsGet ls1 k = jsGet ls2 k := by simpa using h 0 (Nat.succ_pos _)
      have htail : ∀ j, j < gs.length → jsGet ls1 (k + 1 + j) = jsGet ls2 (k + 1 + j) := by
        intro j hj
        have := h (j + 1) (by simpa using Nat.succ_lt_succ hj)
        simpa [Nat.add_assoc, Nat.add_comm 1 j] using this
      simp only [emitRectsAux, h0, emitRectsAux_congr ls1 ls2 gs (k + 1) htail]

theorem emitRects_init :
    ∀ rs : List RectProps,
      emitRects (rs.map toGeom) (rs.map (fun r => some r.label))
        = rs.map (fun r =>
            { left := r.left, top := r.top, width := r.width, height := r.height
            , label := some r.label })
  | [] => rfl
  | r :: rs => by
      have ih := emitRects_init rs
      simp only [emitRects] at ih ⊢
      simp only [List.map_cons, emitRectsAux, jsGet, List.getElem?_cons_zero,
        Option.join, toGeom, Nat.zero_add, emitRectsAux_cons_shift, ih,
        Option.some_bind, id]

theorem jsGet_jsSet_self (ls : List (Option String)) (i : ℕ) (v : Option String) :
    jsGet (jsSet ls i v) i = v := by
  unfold jsSet jsGet
  by_cases h : i < ls.length
  · simp [h]
  · have hlen : i - ls.length < (List.replicate (i - ls.length) (none : Option String) ++ [v]).length := by
      simp
    have hge : ls.length ≤ i := Nat.le_of_not_lt h
    simp only [h, if_false, List.append_assoc]
    rw [List.getElem?_append_right hge]
    rw [List.getElem?_append_right (by simp)]
    simp

theorem jsGet_jsSet_ne (ls : List (Option String)) (i j : ℕ) (v : Option String)
    (hne : j ≠ i) : jsGet (jsSet ls i v) j = jsGet ls j := by
  unfold jsSet jsGet
  by_cases h : i < ls.length
  · simp [h, List.getElem?_set_ne (Ne.symm hne)]
  · simp only [h, if_false]
    by_cases hj : j < ls.length
    · rw [List.getElem?_append_left (by simp; omega)]
      rw [List.getElem?_append_left hj]
    · have hjge : ls.length ≤ j := Nat.le_of_not_lt hj
      have hnone : ls[j]? = none := by
        exact List.getElem?_eq_none hjge
      rw [hnone]
      by_cases hcase : j < (ls ++ List.replicate (i - ls.length) none).length
      · rw [List.getElem?_append_left hcase]
        rw [List.getElem?_append_right hjge]
        have : j - ls.length < i - ls.length := by
          simp only [List.length_append, List.length_replicate] at hcase
          omega
        simp [List.getElem?_replicate, this]
      · have : (ls ++ List.replicate (i - ls.length) none).length ≤ j :=
          Nat.le_of_not_lt hcase
        rw [List.getElem?_append_right this]
        have hlen2 : j - (ls ++ List.replicate (i - ls.length) none).length ≠ 0 := by
          simp only [List.length_append, List.length_replicate] at hcase ⊢
          omega
        have hnone2 :
            ([v] : List (Option String))[j - (ls ++ List.replicate (i - ls.length) none).length]? = none := by
          apply List.getElem?_eq_none
          simp only [List.length_singleton]
          omega
        simp only [List.length_append, List.length_replicate] at hnone2
        simp [hnone2]

end HelperLemmas

/-! Concrete fixtures used by the example parts of the claims and by the
witnesses. -/

/-- A 1000 x 800 surface with no initial rects. -/
def argsEx : PythonArgs := { canvasWidth := 1000, canvasHeight := 800, rects := [] }

/-- The empty store with the quick-add counter at its initial value. -/
def emptyState : State := { objects := [], labels := [], newBBoxIndex := 0 }

/-- Host arguments with a single initial rect labelled dog. -/
def argsDog : PythonArgs :=
  { canvasWidth := 100, canvasHeight := 100
  , rects := [{ top := 20, left := 10, width := 30, height := 40, label := "dog" }] }

/-- Host arguments with two initial rects labelled dog and fox. -/
def argsTwo : PythonArgs :=
  { canvasWidth := 100, canvasHeight := 100
  , rects := [{ top := 20, left := 10, width := 30, height := 40, label := "dog" },
              { top := 1, left := 2, width := 3, height := 4, label := "fox" }] }

/-- A three-box store with labels a, b, c. -/
def threeBox : State :=
  { objects := [{ left := 1, top := 1, width := 5, height := 5 },
                { left := 2, top := 2, width := 5, height := 5 },
                { left := 3, top := 3, width := 5, height := 5 }]
  , labels := [some "a", some "b", some "c"]
  , newBBoxIndex := 3 }

/-- A four-box store with labels b0..b3. -/
def fourBox : State :=
  { objects := [{ left := 1, top := 1, width := 10, height := 10 },
                { left := 2, top := 2, width := 10, height := 10 },
                { left := 3, top := 3, width := 10, height := 10 },
                { left := 4, top := 4, width := 10, height := 10 }]
  , labels := [some "b0", some "b1", some "b2", some "b3"]
  , newBBoxIndex := 4 }

/-- Helper for C7: every single operation emits exactly one entry per
canvas object of the state it leaves behind. -/
theorem stepOp_emits_full_list (args : PythonArgs) (s : State) (op : Op) :
    (stepOp args s op).2.length = (stepOp args s op).1.objects.length := by
  cases op <;>
    simp [stepOp, addBoxHandler, removeBoxHandler, commitLabel, resetHandler,
      clearHandler, sendCoordinates, emitRects, emitRectsAux_length]

/-- C4: emitting immediately after initializing with host-supplied rects R
reproduces R exactly: the output entry for each box carries R's left, top,
width, height and label, in order, with no drift from the projection into
visual shapes and back through their bounding rectangles. -/
theorem c4_roundtrip_after_init (args : PythonArgs) :
    (sendCoordinates (initState args) (initState args).labels).2
      = args.rects.map (fun r =>
          { left := r.left, top := r.top, width := r.width, height := r.height
          , label := some r.label }) :=
  emitRects_init args.rects

/-- C5: quick-add places each new box deterministically from the surface
size and the session counter n: left = 0.15 wid + 3 n, top = 0.15 hei + 3 n,
width = 0.2 wid, height = 0.2 hei, and the counter advances by one; in
particular two quick-adds from an empty store on a 1000 x 800 surface give
boxes at (150, 120) then (153, 123), each sized 200 x 160. -/
theorem c5_quickadd_placement (args : PythonArgs) (s : State) :
    (addBoxHandler args s).1.objects
      = s.objects ++ [{ left := args.canvasWidth * 0.15 + s.newBBoxIndex * 3
                      , top := args.canvasHeight * 0.15 + s.newBBoxIndex * 3
                      , width := args.canvasWidth * 0.2
                      , height := args.canvasHeight * 0.2 }]
    ∧ (addBoxHandler args s).1.newBBoxIndex = s.newBBoxIndex + 1
    ∧ (addBoxHandler argsEx emptyState).1.objects
        = [{ left := 150, top := 120, width := 200, height := 160 }]
    ∧ (addBoxHandler argsEx (addBoxHandler argsEx emptyState).1).1.objects
        = [{ left := 150, top := 120, width := 200, height := 160 },
           { left := 153, top := 123, width := 200, height := 160 }] := by
  refine ⟨rfl, rfl, ?_, ?_⟩ <;>
    norm_num [addBoxHandler, sendCoordinates, defaultBox, argsEx, emptyState]

/-- C6: clear-all empties the box collection, emits the empty list, and
resets the quick-add counter to 0, so a quick-add performed right after
clear-all behaves exactly like the very first quick-add on an empty
store. -/
theorem c6_clear_resets_counter (args : PythonArgs) (s : State) :
    clearHandler s = ({ objects := [], labels := [], newBBoxIndex := 0 }, [])
    ∧ addBoxHandler args (clearHandler s).1 = addBoxHandler args emptyState :=
  ⟨rfl, rfl⟩

/-- C7: along every sequence of operations, every emission to the host is
the complete ordered list, one entry per box: its length equals the box
store size at emission time. -/
theorem c7_emission_length (args : PythonArgs) (s : State) (ops : List Op) :
    ∀ p ∈ runOps args s ops, p.1.length = p.2.objects.length := by
  induction ops generalizing s with
  | nil => intro p hp; simp [runOps] at hp
  | cons op ops ih =>
      intro p hp
      simp only [runOps, List.mem_cons] at hp
      rcases hp with h | h
      · subst h; exact stepOp_emits_full_list args s op
      · exact ih _ p h

/-- Witness for C7 at a concrete input: the single emission of a quick-add
on the empty store has as many entries as the store afterwards. -/
theorem c7_emission_length_witness :
    (stepOp argsEx emptyState Op.add).2.length
      = (stepOp argsEx emptyState Op.add).1.objects.length :=
  c7_emission_length argsEx emptyState [Op.add]
    ((stepOp argsEx emptyState Op.add).2, (stepOp argsEx emptyState Op.add).1)
    (by simp [runOps])

/-- C8: emission is idempotent: running sendCoordinates again on the state
it produced, with the labels it stored, emits the same serialized list. -/
theorem c8_emission_idempotent (s : State) (ls : List (Option String)) :
    (sendCoordinates (sendCoordinates s ls).1 ((sendCoordinates s ls).1).labels).2
      = (sendCoordinates s ls).2 :=
  rfl

/-- C10: remove-selected with an empty selection leaves every box and
every label unchanged and still emits the complete unchanged list. -/
theorem c10_remove_nothing_selected (s : State) :
    (removeBoxHandler s []).1 = s
    ∧ (removeBoxHandler s []).2 = (sendCoordinates s s.labels).2
    ∧ (removeBoxHandler s []).2.length = s.objects.length := by
  have hkeep : ∀ i : ℕ, decide (¬ (i : ℤ) ∈ ([] : List ℤ)) = true := by
    intro i; simp
  have ho : filterIdx (fun i => decide (¬ (i : ℤ) ∈ ([] : List ℤ))) s.objects
      = s.objects := filterIdxAux_all_true _ hkeep s.objects 0
  have hl : filterIdx (fun i => decide (¬ (i : ℤ) ∈ ([] : List ℤ))) s.labels
      = s.labels := filterIdxAux_all_true _ hkeep s.labels 0
  refine ⟨?_, ?_, ?_⟩
  · obtain ⟨o, l, n⟩ := s
    simp only [removeBoxHandler, sendCoordinates] at *
    rw [ho, hl]
  · simp only [removeBoxHandler, sendCoordinates]
    rw [ho, hl]
  · simp only [removeBoxHandler, sendCoordinates, emitRects]
    rw [emitRectsAux_length, ho]

/-- C1: evaluation of the reset path at concrete inputs. Reset restores
the geometry from the host-supplied rects but calls sendCoordinates with
the pre-reset session labels (the React closure value), not the initial
labels: after relabelling the single dog box to cat, reset emits the
initial geometry with label cat instead of the host label dog; and after
removing box 0 of a two-box session, reset emits the second restored box
with an undefined label, although the host supplied the labels dog and
fox. -/
theorem c1_reset_keeps_session_labels :
    (resetHandler argsDog ((commitLabel (initState argsDog) 0 "cat").1)).2
      = [{ left := 10, top := 20, width := 30, height := 40, label := some "cat" }]
    ∧ argsDog.rects.map (fun r => some r.label) = [some "dog"]
    ∧ (resetHandler argsTwo ((removeBoxHandler (initState argsTwo) [0]).1)).2
      = [{ left := 10, top := 20, width := 30, height := 40, label := some "fox" },
         { left := 2, top := 1, width := 3, height := 4, label := none }]
    ∧ argsTwo.rects.map (fun r => some r.label) = [some "dog", some "fox"] := by
  refine ⟨?_, rfl, ?_, rfl⟩ <;> rfl

/-- C2 counterexample: with the three-box store labelled a, b, c and the
multi-selection of indices 0 and 2, the selection handler records only the
first selected index, so committing the label cat yields labels cat, b, c
and not the bulk-relabelled cat, b, cat the claim requires. -/
theorem c2_bulk_relabel_counterexample :
    (commitLabel threeBox ((handleSelected [0, 2]).getD 0) "cat").1.labels
      = [some "cat", some "b", some "c"]
    ∧ ([some "cat", some "b", some "c"] : List (Option String))
      ≠ [some "cat", some "b", some "cat"] := by
  exact ⟨rfl, by decide⟩

/-- C2 amended: committing a label edit applies the new label only to the
primary (first) member of the selection recorded by the selection handler;
the label of every other index, selected or not, and all geometry are
unchanged. -/
theorem c2_relabel_first_selected_only (s : State) (hd : ℕ) (tl : List ℕ)
    (v : String) :
    handleSelected (hd :: tl) = some hd
    ∧ jsGet (commitLabel s hd v).1.labels hd = some v
    ∧ (∀ j, j ≠ hd → jsGet (commitLabel s hd v).1.labels j = jsGet s.labels j)
    ∧ (commitLabel s hd v).1.objects = s.objects :=
  ⟨rfl, jsGet_jsSet_self s.labels hd (some v),
   fun j hj => jsGet_jsSet_ne s.labels hd j (some v) hj, rfl⟩

/-- Witness for the amended C2 at a concrete input: with selection 0 and 2
on the a, b, c store, committing cat relabels index 0 and leaves index 1
as it was. -/
theorem c2_relabel_first_selected_only_witness :
    jsGet (commitLabel threeBox 0 "cat").1.labels 0 = some "cat"
    ∧ jsGet (commitLabel threeBox 0 "cat").1.labels 1 = jsGet threeBox.labels 1 :=
  ⟨(c2_relabel_first_selected_only threeBox 0 [2] "cat").2.1,
   (c2_relabel_first_selected_only threeBox 0 [2] "cat").2.2.1 1 (by decide)⟩

/-- C3: removal is logically simultaneous against the pre-removal
collection: the surviving objects and labels are exactly those whose
original index is not in the selected index set, re-indexed contiguously
in their original relative order; removing indices 1 and 3 from the
four-box store leaves the boxes originally at 0 and 2 at the new indices 0
and 1. -/
theorem c3_remove_simultaneous (s : State) (idxs : List ℤ) :
    (removeBoxHandler s idxs).1.objects = removeSpec idxs s.objects
    ∧ (removeBoxHandler s idxs).1.labels = removeSpec idxs s.labels
    ∧ (removeBoxHandler fourBox [1, 3]).1.objects
        = [{ left := 1, top := 1, width := 10, height := 10 },
           { left := 3, top := 3, width := 10, height := 10 }]
    ∧ (removeBoxHandler fourBox [1, 3]).1.labels = [some "b0", some "b2"] :=
  ⟨filterIdx_eq_filterMap _ s.objects, filterIdx_eq_filterMap _ s.labels,
   rfl, rfl⟩

/-- C9: an out-of-range index is a no-op and never an error: removal with
any integer index set behaves exactly like removal with the set restricted
to the valid index range, and committing a label at an index at or beyond
the end of the box collection leaves the emitted collection unchanged. -/
theorem c9_out_of_range_is_noop (s : State) (idxs : List ℤ) (i : ℕ)
    (v : String) :
    removeBoxHandler s idxs
      = removeBoxHandler s (idxs.filter (fun j =>
          decide (0 ≤ j ∧ j < ((max s.objects.length s.labels.length : ℕ) : ℤ))))
    ∧ (s.objects.length ≤ i →
        (commitLabel s i v).2 = (sendCoordinates s s.labels).2) := by
  constructor
  · have hmem : ∀ n : ℕ, n < max s.objects.length s.labels.length →
        (decide (¬ (n : ℤ) ∈ idxs)
          = decide (¬ (n : ℤ) ∈ idxs.filter (fun j =>
              decide (0 ≤ j ∧ j < ((max s.objects.length s.labels.length : ℕ) : ℤ))))) := by
      intro n hn
      apply decide_eq_decide.mpr
      apply not_congr
      constructor
      · intro h
        apply List.mem_filter.mpr
        refine ⟨h, ?_⟩
        simp only [decide_eq_true_eq]
        exact ⟨Int.ofNat_nonneg n, by exact_mod_cast hn⟩
      · intro h
        exact (List.mem_filter.mp h).1
    have hobj := filterIdxAux_congr
      (fun k => decide (¬ (k : ℤ) ∈ idxs))
      (fun k => decide (¬ (k : ℤ) ∈ idxs.filter (fun j =>
        decide (0 ≤ j ∧ j < ((max s.objects.length s.labels.length : ℕ) : ℤ)))))
      s.objects 0
      (fun j hj => hmem (0 + j) (by
        simp only [Nat.zero_add]
        exact lt_of_lt_of_le hj (le_max_left _ _)))
    have hlab := filterIdxAux_congr
      (fun k => decide (¬ (k : ℤ) ∈ idxs))
      (fun k => decide (¬ (k : ℤ) ∈ idxs.filter (fun j =>
        decide (0 ≤ j ∧ j < ((max s.objects.length s.labels.length : ℕ) : ℤ)))))
      s.labels 0
      (fun j hj => hmem (0 + j) (by
        simp only [Nat.zero_add]
        exact lt_of_lt_of_le hj (le_max_right _ _)))
    simp only [removeBoxHandler, filterIdx]
    rw [hobj, hlab]
  · intro hle
    simp only [commitLabel, sendCoordinates, emitRects]
    apply emitRectsAux_congr
    intro j hj
    apply jsGet_jsSet_ne
    omega

/-- Witness for C9 at a concrete input: on the three-box store, removing
with the index set 1, 99, -1 equals removing with its in-range restriction,
and committing a label at index 7 leaves the emitted collection
unchanged. -/
theorem c9_out_of_range_is_noop_witness :
    removeBoxHandler threeBox [1, 99, -1]
      = removeBoxHandler threeBox ([1, 99, -1].filter (fun j =>
          decide (0 ≤ j ∧ j < ((max threeBox.objects.length threeBox.labels.length : ℕ) : ℤ))))
    ∧ (commitLabel threeBox 7 "x").2 = (sendCoordinates threeBox threeBox.labels).2 :=
  ⟨(c9_out_of_range_is_noop threeBox [1, 99, -1] 7 "x").1,
   (c9_out_of_range_is_noop threeBox [1, 99, -1] 7 "x").2 (by decide)⟩

end StreamlitImgLabel
